import Mathlib

/-!
Shallow embedding of `src/merge.c` (pg_probackup merge engine) and proofs
about its chain driver (`do_merge`), pair orchestrator (`merge_backups`),
worker (`merge_files`) and extra-directory reconciler
(`reorder_extra_dirs` / `get_extra_index`).

Machine integers are modelled as `Nat` / `Int`; external collaborators
(catalog validation, the block-diff codec, the filesystem) are passed in
as oracle functions, and the side effects the source performs through
them are recorded as explicit event lists.
-/

namespace Merge

/-- Backup mode (`BACKUP_MODE_FULL`, `BACKUP_MODE_DIFF_PAGE`,
`BACKUP_MODE_DIFF_DELTA`). -/
inductive BackupMode
  | mFull
  | mPage
  | mDelta
deriving DecidableEq, Repr

/-- Backup status values that `merge.c` inspects; every other catalog
status is collapsed into `stOther`. -/
inductive BackupStatus
  | stOK
  | stMerging
  | stDeleting
  | stCorrupt
  | stOther
deriving DecidableEq, Repr

/-- Compression algorithm (`NONE_COMPRESS`/`NOT_DEFINED_COMPRESS` collapsed
into `algNone`, plus `PGLZ_COMPRESS`, `ZLIB_COMPRESS`). -/
inductive CompressAlg
  | algNone
  | algPglz
  | algZlib
deriving DecidableEq, Repr

/-- `INVALID_BACKUP_ID` (value 0 in the source). -/
def INVALID_BACKUP_ID : Nat := 0

/-- `BYTES_INVALID` sentinel (-1 in the source). -/
def BYTES_INVALID : Int := -1

/-- The fields of `pgBackup` that `merge.c` reads or writes.
`extra_dir_str` is the parsed form of the source's string field: the
source always feeds it through `make_extra_directory_list`, so it is
modelled directly as an optional path list (NULL = `none`). -/
structure PgBackup where
  start_time : Nat
  backup_mode : BackupMode
  status : BackupStatus
  parent_backup : Nat
  start_lsn : Nat
  stop_lsn : Nat
  recovery_time : Nat
  recovery_xid : Nat
  stream : Bool
  compress_alg : CompressAlg
  compress_level : Nat
  data_bytes : Int
  wal_bytes : Int
  extra_dir_str : Option (List String)
  program_version : Nat
deriving DecidableEq, Repr

/-- Placeholder descriptor used where the C code would read
`parray_get` out of a pointer that is never dereferenced on the
in-range paths. -/
def dummyBackup : PgBackup :=
  { start_time := 0, backup_mode := .mFull, status := .stOther,
    parent_backup := 0, start_lsn := 0, stop_lsn := 0, recovery_time := 0,
    recovery_xid := 0, stream := false, compress_alg := .algNone,
    compress_level := 0, data_bytes := 0, wal_bytes := 0,
    extra_dir_str := none, program_version := 0 }

/-- The distinct `elog(ERROR, ...)` exits of `merge.c` (an `elog` with
level ERROR aborts the operation). -/
inductive MergeError
  | requiredParam      -- "required parameter is not specified"
  | badStatus          -- "Backup %s has status: %s"
  | destIsFull         -- "Backup %s is full backup"
  | notFoundTarget     -- "Target backup %s was not found"
  | notFoundFull       -- "Parent full backup ... was not found"
  | interruptMerging   -- "Interrupt merging" (validation found corruption)
  | mergeFailed        -- "Data files merging failed"
  | mergeIncomplete    -- "Merging of backup %s failed" (final validation)
  | renameFailed       -- "Could not rename directory ..."
  | interrupted        -- "Interrupted during merging backups"
deriving DecidableEq, Repr

/-!
### Chain Merge Driver: the search loop of `do_merge` (merge.c:76-130)

The loop walks the catalog (descending start time), finds the
destination backup (`start_time == backup_id`), then follows
`prev_parent` links to the nearest FULL ancestor.  `dest` carries the
destination's index and descriptor once found; `prevParent` mirrors the
C variable `prev_parent`, which is updated only by iterations that do
not `continue` early.
-/

def findLoop (backup_id : Nat) :
    List PgBackup → Nat → Option (Nat × PgBackup) → Nat →
    Except MergeError (Nat × Nat × PgBackup × PgBackup)
  | [], _, none, _ => .error .notFoundTarget
  | [], _, some _, _ => .error .notFoundFull
  | b :: rest, i, none, prevParent =>
    -- destination not located yet: `backup->start_time == backup_id && !dest_backup`
    if b.start_time > backup_id then
      findLoop backup_id rest (i + 1) none prevParent
    else if b.start_time = backup_id then
      if b.status ≠ .stOK ∧ b.status ≠ .stMerging ∧ b.status ≠ .stDeleting then
        .error .badStatus
      else if b.backup_mode = .mFull then
        .error .destIsFull
      else
        findLoop backup_id rest (i + 1) (some (i, b)) b.parent_backup
    else
      .error .notFoundTarget
  | b :: rest, i, some (d, db), prevParent =>
    -- destination already located: the `== backup_id && !dest_backup` test is false
    if b.start_time > backup_id then
      findLoop backup_id rest (i + 1) (some (d, db)) prevParent
    else if b.start_time ≠ prevParent then
      findLoop backup_id rest (i + 1) (some (d, db)) prevParent
    else if b.status ≠ .stOK ∧ b.status ≠ .stMerging then
      .error .badStatus
    else if b.backup_mode = .mFull then
      .ok (d, i, db, b)
    else
      findLoop backup_id rest (i + 1) (some (d, db)) b.parent_backup

/-- The destination/full-ancestor resolution of `do_merge`
(merge.c:76-130): returns `(dest_backup_idx, full_backup_idx,
dest_backup, full_backup)` or the corresponding `elog(ERROR)` exit. -/
def findBackups (backup_id : Nat) (backups : List PgBackup) :
    Except MergeError (Nat × Nat × PgBackup × PgBackup) :=
  findLoop backup_id backups 0 none INVALID_BACKUP_ID

/-- Indices handed to `merge_backups` as `from_backup` by the driver loop
`for (i = full_backup_idx; i > dest_backup_idx; i--)` which passes
`parray_get(backups, i - 1)` (merge.c:137-142), in invocation order. -/
def mergeLoopIdxs (d : Nat) : Nat → List Nat
  | 0 => []
  | f + 1 => if f + 1 > d then f :: mergeLoopIdxs d f else []

/-- The driver's merge loop (merge.c:137-142): repeatedly folds the
abstract pair merge over the backups at the loop's indices, threading
the running full backup. -/
def mergeLoop (mergeFn : PgBackup → PgBackup → Except MergeError PgBackup)
    (backups : List PgBackup) (d f : Nat) (fb : PgBackup) :
    Except MergeError PgBackup :=
  (mergeLoopIdxs d f).foldlM
    (fun acc j => mergeFn acc (backups.getD j dummyBackup)) fb

/-- `do_merge` (merge.c:51-153), with the external collaborators as
parameters: `validate b` is the status `pgBackupValidate` leaves on `b`,
and `mergeFn` is `merge_backups` on one pair.  Returns the final state
of the absorbed full backup. -/
def doMerge (validate : PgBackup → BackupStatus)
    (mergeFn : PgBackup → PgBackup → Except MergeError PgBackup)
    (backup_id : Nat) (backups : List PgBackup) :
    Except MergeError PgBackup :=
  if backup_id = INVALID_BACKUP_ID then .error .requiredParam
  else
    match findBackups backup_id backups with
    | .error e => .error e
    | .ok (d, f, _db, fb) =>
      match mergeLoop mergeFn backups d f fb with
      | .error e => .error e
      | .ok full1 =>
        if validate full1 = .stCorrupt then .error .mergeIncomplete
        else .ok { full1 with status := validate full1 }

/-- Parent chain of backup ids starting at `id`, following
`parent_backup` links inside the catalog, stopping at a FULL backup
(fuel-bounded). -/
def parentChainIds (backups : List PgBackup) : Nat → Nat → List Nat
  | _, 0 => []
  | id, fuel + 1 =>
    match backups.find? (fun b => b.start_time = id) with
    | none => []
    | some b =>
      if b.backup_mode = .mFull then [id]
      else id :: parentChainIds backups b.parent_backup fuel

/-!
### Lemmas about the driver loop bounds
-/

theorem mergeLoopIdxs_length (d : Nat) :
    ∀ f, (mergeLoopIdxs d f).length = f - d := by
  intro f
  induction f with
  | zero => simp [mergeLoopIdxs]
  | succ f ih =>
    simp only [mergeLoopIdxs]
    split
    · next h =>
      simp only [List.length_cons, ih]
      omega
    · next h =>
      simp only [List.length_nil]
      omega

theorem mergeLoopIdxs_get (d : Nat) :
    ∀ f k, k < f - d → (mergeLoopIdxs d f).get? k = some (f - 1 - k) := by
  intro f
  induction f with
  | zero => intro k hk; omega
  | succ f ih =>
    intro k hk
    simp only [mergeLoopIdxs]
    split
    · next h =>
      cases k with
      | zero => simp
      | succ k' =>
        simp only [List.get?_cons_succ]
        rw [ih k' (by omega)]
        congr 1
        omega
    · next h => omega

theorem mergeLoopIdxs_mem (d : Nat) :
    ∀ f j, j ∈ mergeLoopIdxs d f → d ≤ j ∧ j < f := by
  intro f
  induction f with
  | zero => intro j hj; simp [mergeLoopIdxs] at hj
  | succ f ih =>
    intro j hj
    simp only [mergeLoopIdxs] at hj
    split at hj
    · next h =>
      rcases List.mem_cons.mp hj with h1 | h1
      · omega
      · have := ih j h1
        omega
    · next h => simp at hj

/-!
### Invariants of the catalog search loop
-/

theorem findLoop_ok_props (backup_id : Nat) :
    ∀ (rest : List PgBackup) (i : Nat) (dest : Option (Nat × PgBackup))
      (prev : Nat) (d f : Nat) (db fb : PgBackup),
    findLoop backup_id rest i dest prev = .ok (d, f, db, fb) →
    (∀ d0 db0, dest = some (d0, db0) →
      d0 < i ∧ db0.start_time = backup_id ∧ db0.backup_mode ≠ .mFull ∧
      (db0.status = .stOK ∨ db0.status = .stMerging ∨ db0.status = .stDeleting)) →
    i ≤ f ∧ d < f ∧ db.start_time = backup_id ∧ db.backup_mode ≠ .mFull ∧
    (db.status = .stOK ∨ db.status = .stMerging ∨ db.status = .stDeleting) ∧
    fb.backup_mode = .mFull ∧ (fb.status = .stOK ∨ fb.status = .stMerging) := by
  intro rest
  induction rest with
  | nil =>
    intro i dest prev d f db fb hok _
    cases dest <;> simp [findLoop] at hok
  | cons b rest ih =>
    intro i dest prev d f db fb hok hinv
    cases dest with
    | none =>
      simp only [findLoop] at hok
      split at hok
      · -- start_time > backup_id: skipped
        have := ih (i + 1) none prev d f db fb hok (by simp)
        exact ⟨by omega, this.2⟩
      · split at hok
        · -- destination match branch
          next heq =>
          split at hok
          · exact absurd hok (by simp)
          · next hst =>
            split at hok
            · exact absurd hok (by simp)
            · next hnf =>
              have := ih (i + 1) (some (i, b)) b.parent_backup d f db fb hok
                (fun d0 db0 h0 => by
                  injection h0 with h0
                  injection h0 with h1 h2
                  subst h1; subst h2
                  refine ⟨by omega, heq, hnf, ?_⟩
                  by_contra hbad
                  push_neg at hbad
                  exact hst ⟨hbad.1, hbad.2.1, hbad.2.2⟩)
              exact ⟨by omega, this.2⟩
        · exact absurd hok (by simp)
    | some p =>
      obtain ⟨d', db'⟩ := p
      have hinv' := hinv d' db' rfl
      simp only [findLoop] at hok
      split at hok
      · -- start_time > backup_id: skipped
        have := ih (i + 1) (some (d', db')) prev d f db fb hok
          (fun d0 db0 h0 => by
            injection h0 with h0
            injection h0 with h1 h2
            subst h1; subst h2
            exact ⟨by omega, hinv'.2⟩)
        exact ⟨by omega, this.2⟩
      · split at hok
        · -- not the awaited parent: skipped
          have := ih (i + 1) (some (d', db')) prev d f db fb hok
            (fun d0 db0 h0 => by
              injection h0 with h0
              injection h0 with h1 h2
              subst h1; subst h2
              exact ⟨by omega, hinv'.2⟩)
          exact ⟨by omega, this.2⟩
        · split at hok
          · exact absurd hok (by simp)
          · next hst =>
            split at hok
            · -- FULL ancestor found: the loop breaks here
              next hfull =>
              injection hok with hok
              injection hok with h1 hok
              injection hok with h2 hok
              injection hok with h3 h4
              subst h1; subst h2; subst h3; subst h4
              refine ⟨le_rfl, hinv'.1, hinv'.2.1, hinv'.2.2.1, hinv'.2.2.2,
                hfull, ?_⟩
              by_contra hbad
              push_neg at hbad
              exact hst ⟨hbad.1, hbad.2⟩
            · -- intermediate incremental: walk up
              have := ih (i + 1) (some (d', db')) b.parent_backup d f db fb hok
                (fun d0 db0 h0 => by
                  injection h0 with h0
                  injection h0 with h1 h2
                  subst h1; subst h2
                  exact ⟨by omega, hinv'.2⟩)
              exact ⟨by omega, this.2⟩

/-!
### Error paths of the search loop
-/

theorem findLoop_none_nomatch (id : Nat) :
    ∀ (l : List PgBackup) (i prev : Nat), (∀ b ∈ l, b.start_time ≠ id) →
    findLoop id l i none prev = .error .notFoundTarget := by
  intro l
  induction l with
  | nil => intro i prev _; rfl
  | cons b rest ih =>
    intro i prev h
    have hb := h b (List.mem_cons_self b rest)
    simp only [findLoop]
    split
    · exact ih (i + 1) prev (fun x hx => h x (List.mem_cons_of_mem b hx))
    · -- `split` discharges the `start_time = id` branch against `hb`
      rfl

theorem findLoop_append_pre (id : Nat) :
    ∀ (pre rest : List PgBackup) (i : Nat) (dest : Option (Nat × PgBackup))
      (prev : Nat), (∀ b ∈ pre, b.start_time > id) →
    findLoop id (pre ++ rest) i dest prev =
      findLoop id rest (i + pre.length) dest prev := by
  intro pre
  induction pre with
  | nil => intro rest i dest prev _; simp
  | cons b pre ih =>
    intro rest i dest prev h
    have hb := h b (List.mem_cons_self b pre)
    have htail := fun x hx => h x (List.mem_cons_of_mem b hx)
    have harith : i + 1 + pre.length = i + (b :: pre).length := by
      simp only [List.length_cons]
      omega
    cases dest with
    | none =>
      simp only [List.cons_append, findLoop, List.append_eq]
      rw [if_pos hb, ih rest (i + 1) none prev htail, harith]
    | some p =>
      obtain ⟨d', db'⟩ := p
      simp only [List.cons_append, findLoop, List.append_eq]
      rw [if_pos hb, ih rest (i + 1) (some (d', db')) prev htail, harith]

theorem findLoop_some_skip (id : Nat) :
    ∀ (post : List PgBackup) (i d0 : Nat) (db0 : PgBackup) (prev : Nat),
    (∀ b ∈ post, b.start_time ≤ id ∧ b.start_time ≠ prev) →
    findLoop id post i (some (d0, db0)) prev = .error .notFoundFull := by
  intro post
  induction post with
  | nil => intro i d0 db0 prev _; rfl
  | cons b rest ih =>
    intro i d0 db0 prev h
    have hb := h b (List.mem_cons_self b rest)
    simp only [findLoop]
    rw [if_neg (by omega), if_pos hb.2]
    exact ih (i + 1) d0 db0 prev (fun x hx => h x (List.mem_cons_of_mem b hx))

theorem findLoop_some_nofull (id : Nat) :
    ∀ (post : List PgBackup) (i d0 : Nat) (db0 : PgBackup) (prev : Nat),
    (∀ b ∈ post, b.start_time ≤ id ∧
      (b.status = .stOK ∨ b.status = .stMerging) ∧ b.backup_mode ≠ .mFull) →
    findLoop id post i (some (d0, db0)) prev = .error .notFoundFull := by
  intro post
  induction post with
  | nil => intro i d0 db0 prev _; rfl
  | cons b rest ih =>
    intro i d0 db0 prev h
    have hb := h b (List.mem_cons_self b rest)
    have htail := fun x hx => h x (List.mem_cons_of_mem b hx)
    simp only [findLoop]
    rw [if_neg (by omega)]
    by_cases hp : b.start_time = prev
    · rw [if_neg (fun hcon => hcon hp),
        if_neg (by rcases hb.2.1 with h1 | h1 <;> simp [h1]),
        if_neg hb.2.2]
      exact ih (i + 1) d0 db0 b.parent_backup htail
    · rw [if_pos hp]
      exact ih (i + 1) d0 db0 prev htail

/-!
### Concrete catalogs used to instantiate the driver theorems
-/

/-- Build a catalog entry varying only the fields the driver reads. -/
def mkCatBackup (t : Nat) (m : BackupMode) (s : BackupStatus) (p : Nat) :
    PgBackup :=
  { dummyBackup with
    start_time := t, backup_mode := m, status := s, parent_backup := p }

/-- Destination backup: id 10, incremental, parent 5. -/
def exDest : PgBackup := mkCatBackup 10 .mPage .stOK 5

/-- Interleaved backup of an unrelated chain: id 8, parent 2. -/
def exAlien : PgBackup := mkCatBackup 8 .mPage .stOK 2

/-- FULL ancestor of the destination: id 5. -/
def exFull : PgBackup := mkCatBackup 5 .mFull .stOK 0

/-- Catalog (descending start time) where a foreign chain's backup sits
between the destination and its FULL ancestor. -/
def exCat : List PgBackup := [exDest, exAlien, exFull]

/-!
### Claim C1
-/

/-- C1 (amended): when `do_merge` resolves the destination at
descending-catalog index `d` and the FULL ancestor at index `f`, the
driver loop invokes the pair merge exactly `f - d` times, the 0-based
`k`-th invocation passing the running full backup together with the
backup at catalog index `f - 1 - k` (so the 1-based `i`-th invocation
gets index `f - i`); every index so passed lies between the destination
and the FULL ancestor (`d ≤ j < f`, with `d < f`), the resolved
destination carries the requested identifier and is not FULL, and the
resolved ancestor is FULL.  The claim's stronger assertion that every
passed backup is a member of the parent chain is refuted by
`c1_chain_counterexample`: the loop walks raw catalog positions, which
may include interleaved backups of other chains. -/
theorem c1_driver_invocations (backup_id : Nat) (backups : List PgBackup)
    (d f : Nat) (db fb : PgBackup)
    (h : findBackups backup_id backups = .ok (d, f, db, fb)) :
    (mergeLoopIdxs d f).length = f - d ∧
    (∀ k, k < f - d → (mergeLoopIdxs d f).get? k = some (f - 1 - k)) ∧
    (∀ j ∈ mergeLoopIdxs d f, d ≤ j ∧ j < f) ∧
    d < f ∧ db.start_time = backup_id ∧ db.backup_mode ≠ .mFull ∧
    fb.backup_mode = .mFull := by
  have hp := findLoop_ok_props backup_id backups 0 none INVALID_BACKUP_ID
    d f db fb h (by simp)
  exact ⟨mergeLoopIdxs_length d f, fun k hk => mergeLoopIdxs_get d f k hk,
    fun j hj => mergeLoopIdxs_mem d f j hj, hp.2.1, hp.2.2.1, hp.2.2.2.1,
    hp.2.2.2.2.2.1⟩

/-- Witness for `c1_driver_invocations` on the concrete catalog `exCat`
(destination at index 0, FULL ancestor at index 2). -/
theorem c1_driver_invocations_witness :
    (mergeLoopIdxs 0 2).length = 2 - 0 ∧ 0 < 2 ∧
    exDest.start_time = 10 ∧ exFull.backup_mode = .mFull :=
  have h := c1_driver_invocations 10 exCat 0 2 exDest exFull rfl
  ⟨h.1, h.2.2.2.1, h.2.2.2.2.1, h.2.2.2.2.2.2⟩

/-- C1 counterexample: on `exCat` the driver resolves `d = 0`, `f = 2`
and its loop passes the backup at catalog index 1 — id 8, a member of a
different chain — although the destination's parent chain is 10 → 5.
So "every backup so passed is a member of the parent chain from the
destination to the FULL ancestor" is false as stated. -/
theorem c1_chain_counterexample :
    findBackups 10 exCat = .ok (0, 2, exDest, exFull) ∧
    1 ∈ mergeLoopIdxs 0 2 ∧
    (exCat.getD 1 dummyBackup).start_time = 8 ∧
    ¬ (8 ∈ parentChainIds exCat 10 3) := by
  refine ⟨rfl, by decide, by decide, by decide⟩

/-!
### Claim C2
-/

/-- C2: the driver fails with a not-found error when (i) no backup
matches the requested identifier, (ii) the parent chain from the
destination is broken (no later backup carries the awaited parent id),
or (iii) the chain never reaches a FULL ancestor; and (iv) once every
pair merge of the loop has succeeded, `do_merge` re-validates the
absorbed full backup and fails (`mergeIncomplete`, merge.c:144-146)
exactly when that final validation reports CORRUPT. -/
theorem c2_driver_error_paths :
    (∀ (validate : PgBackup → BackupStatus)
       (mergeFn : PgBackup → PgBackup → Except MergeError PgBackup)
       (id : Nat) (backups : List PgBackup),
      id ≠ INVALID_BACKUP_ID →
      (∀ b ∈ backups, b.start_time ≠ id) →
      doMerge validate mergeFn id backups = .error .notFoundTarget) ∧
    (∀ (validate : PgBackup → BackupStatus)
       (mergeFn : PgBackup → PgBackup → Except MergeError PgBackup)
       (id : Nat) (pre : List PgBackup) (dst : PgBackup)
       (post : List PgBackup),
      id ≠ INVALID_BACKUP_ID →
      (∀ b ∈ pre, b.start_time > id) →
      dst.start_time = id →
      ¬(dst.status ≠ .stOK ∧ dst.status ≠ .stMerging ∧
        dst.status ≠ .stDeleting) →
      dst.backup_mode ≠ .mFull →
      (∀ b ∈ post, b.start_time ≤ id ∧ b.start_time ≠ dst.parent_backup) →
      doMerge validate mergeFn id (pre ++ dst :: post) =
        .error .notFoundFull) ∧
    (∀ (validate : PgBackup → BackupStatus)
       (mergeFn : PgBackup → PgBackup → Except MergeError PgBackup)
       (id : Nat) (pre : List PgBackup) (dst : PgBackup)
       (post : List PgBackup),
      id ≠ INVALID_BACKUP_ID →
      (∀ b ∈ pre, b.start_time > id) →
      dst.start_time = id →
      ¬(dst.status ≠ .stOK ∧ dst.status ≠ .stMerging ∧
        dst.status ≠ .stDeleting) →
      dst.backup_mode ≠ .mFull →
      (∀ b ∈ post, b.start_time ≤ id ∧
        (b.status = .stOK ∨ b.status = .stMerging) ∧
        b.backup_mode ≠ .mFull) →
      doMerge validate mergeFn id (pre ++ dst :: post) =
        .error .notFoundFull) ∧
    (∀ (validate : PgBackup → BackupStatus)
       (mergeFn : PgBackup → PgBackup → Except MergeError PgBackup)
       (id : Nat) (backups : List PgBackup) (d f : Nat)
       (dbx fbx full1 : PgBackup),
      id ≠ INVALID_BACKUP_ID →
      findBackups id backups = .ok (d, f, dbx, fbx) →
      mergeLoop mergeFn backups d f fbx = .ok full1 →
      (validate full1 = .stCorrupt →
        doMerge validate mergeFn id backups = .error .mergeIncomplete) ∧
      (validate full1 ≠ .stCorrupt →
        doMerge validate mergeFn id backups =
          .ok { full1 with status := validate full1 })) := by
  refine ⟨?_, ?_, ?_, ?_⟩
  · intro validate mergeFn id backups h0 h1
    unfold doMerge findBackups
    rw [if_neg h0, findLoop_none_nomatch id backups 0 INVALID_BACKUP_ID h1]
  · intro validate mergeFn id pre dst post h0 hpre hdst hst hmode hpost
    unfold doMerge findBackups
    rw [if_neg h0,
      findLoop_append_pre id pre (dst :: post) 0 none INVALID_BACKUP_ID hpre]
    simp only [findLoop]
    rw [if_neg (by omega), if_pos hdst, if_neg hst, if_neg hmode,
      findLoop_some_skip id post (0 + pre.length + 1) (0 + pre.length) dst
        dst.parent_backup hpost]
  · intro validate mergeFn id pre dst post h0 hpre hdst hst hmode hpost
    unfold doMerge findBackups
    rw [if_neg h0,
      findLoop_append_pre id pre (dst :: post) 0 none INVALID_BACKUP_ID hpre]
    simp only [findLoop]
    rw [if_neg (by omega), if_pos hdst, if_neg hst, if_neg hmode,
      findLoop_some_nofull id post (0 + pre.length + 1) (0 + pre.length) dst
        dst.parent_backup hpost]
  · intro validate mergeFn id backups d f dbx fbx full1 h0 hfind hloop
    constructor
    · intro hc
      unfold doMerge
      rw [if_neg h0]
      simp only [hfind, hloop]
      rw [if_pos hc]
    · intro hc
      unfold doMerge
      rw [if_neg h0]
      simp only [hfind, hloop]
      rw [if_neg hc]

/-- Witness for `c2_driver_error_paths`: every error path instantiated
on a concrete catalog (no match; broken chain; chain without a FULL
ancestor; corrupt / clean final validation). -/
theorem c2_driver_error_paths_witness :
    doMerge (fun b => b.status) (fun fb _ => .ok fb) 7 exCat =
      .error .notFoundTarget ∧
    doMerge (fun b => b.status) (fun fb _ => .ok fb) 10
      [exDest, mkCatBackup 4 .mPage .stOK 2] = .error .notFoundFull ∧
    doMerge (fun b => b.status) (fun fb _ => .ok fb) 10
      [exDest, mkCatBackup 5 .mPage .stOK 0] = .error .notFoundFull ∧
    doMerge (fun _ => .stCorrupt) (fun fb _ => .ok fb) 10 exCat =
      .error .mergeIncomplete ∧
    doMerge (fun b => b.status) (fun fb _ => .ok fb) 10 exCat = .ok exFull :=
  ⟨c2_driver_error_paths.1 _ _ 7 exCat (by decide) (by decide),
   c2_driver_error_paths.2.1 _ _ 10 [] exDest [mkCatBackup 4 .mPage .stOK 2]
     (by decide) (by simp) (by decide) (by decide) (by decide) (by decide),
   c2_driver_error_paths.2.2.1 _ _ 10 [] exDest [mkCatBackup 5 .mPage .stOK 0]
     (by decide) (by simp) (by decide) (by decide) (by decide) (by decide),
   (c2_driver_error_paths.2.2.2 (fun _ => .stCorrupt) (fun fb _ => .ok fb)
     10 exCat 0 2 exDest exFull exFull (by decide) rfl rfl).1 rfl,
   (c2_driver_error_paths.2.2.2 (fun b => b.status) (fun fb _ => .ok fb)
     10 exCat 0 2 exDest exFull exFull (by decide) rfl rfl).2 (by decide)⟩

/-!
### Extra-Directory Reconciler (merge.c:655-714)
-/

/-- Scan loop of `get_extra_index`: 1-based position of the first
element equal to `key`, starting the count at `i`; -1 when absent. -/
def get_extra_index_go (key : String) : List String → Nat → Int
  | [], _ => -1
  | x :: xs, i => if key = x then (i : Int) else get_extra_index_go key xs (i + 1)

/-- `get_extra_index` (merge.c:672-683): 1-based position of `key` in
`list`, -1 when the list is NULL or `key` is absent. -/
def get_extra_index (key : String) : Option (List String) → Int
  | none => -1
  | some l => get_extra_index_go key l 1

theorem get_extra_index_go_spec (key : String) :
    ∀ (l : List String) (i : Nat),
    get_extra_index_go key l i =
      if key ∈ l then (i + l.indexOf key : Int) else -1 := by
  intro l
  induction l with
  | nil => intro i; simp [get_extra_index_go]
  | cons x xs ih =>
    intro i
    simp only [get_extra_index_go]
    by_cases hx : key = x
    · subst hx
      rw [if_pos rfl, if_pos (List.mem_cons_self key xs)]
      simp [List.indexOf_cons_self]
    · rw [if_neg hx, ih (i + 1)]
      by_cases hmem : key ∈ xs
      · rw [if_pos hmem, if_pos (List.mem_cons_of_mem x hmem)]
        rw [List.indexOf_cons_ne _ (Ne.symm hx), Nat.succ_eq_add_one]
        push_cast
        ring
      · rw [if_neg hmem, if_neg (by simp [hx, hmem])]

/-- Positional specification of `get_extra_index` on a non-NULL list. -/
theorem get_extra_index_eq (key : String) (l : List String) :
    get_extra_index key (some l) =
      if key ∈ l then (l.indexOf key + 1 : Int) else -1 := by
  simp only [get_extra_index, get_extra_index_go_spec]
  split
  · push_cast
    ring
  · rfl

/-- Filesystem actions of the reconciler; positions are the 1-based
numbers fed to `makeExtraDirPathByNum`. -/
inductive ReorderAction
  | removeDir (pos : Nat)            -- `remove_dir_with_files` (recursive delete)
  | renameDir (oldPos newPos : Nat)  -- `rename(old_path, new_path)`
deriving DecidableEq, Repr

/-- Action taken by one iteration of `reorder_extra_dirs`
(merge.c:693-713) for the destination entry at 0-based position `i`. -/
def reorderStep (to_extra : List String) (from_extra : Option (List String))
    (i : Nat) : Option ReorderAction :=
  if get_extra_index (to_extra.getD i "") from_extra = -1 then
    some (.removeDir (i + 1))
  else if get_extra_index (to_extra.getD i "") from_extra ≠ (i + 1 : Int) then
    some (.renameDir (i + 1) (get_extra_index (to_extra.getD i "") from_extra).toNat)
  else none

/-- `reorder_extra_dirs` (merge.c:686-714) as the sequence of
filesystem actions it performs, processing destination positions in
ascending order off the fixed snapshots of both lists. -/
def reorderActions (to_extra : List String)
    (from_extra : Option (List String)) : List ReorderAction :=
  (List.range to_extra.length).filterMap (reorderStep to_extra from_extra)

/-- Claim C3's collision-freedom assertion: a rename emitted while
processing destination position `i + 1` never targets one of the later
positions `i + 2 .. n`, which at that moment still hold their original
(not-yet-processed) containers — later steps only ever move the
container at their own position, see `c3_reorder_per_step`. -/
def reorderCollisionFree (to_extra : List String)
    (from_extra : Option (List String)) : Prop :=
  ∀ i t, reorderStep to_extra from_extra i = some (.renameDir (i + 1) t) →
    ¬(i + 2 ≤ t ∧ t ≤ to_extra.length)

/-- C3 (amended): processing destination positions in ascending order,
the reconciler deletes the on-disk container at position `i + 1`
exactly when its path is absent from the source list (or that list is
NULL), renames it to the source list's 1-based position of the path
when the positions differ, and leaves it in place when they agree; and
every emitted action touches only the container at its own step's
position, so a position's container is untouched until its own step.
The claim's further assertion that a rename can never target a
position still occupied by a not-yet-processed original container is
refuted by `c3_collision_counterexample` (two swapped paths make the
first rename target the later, still-occupied position). -/
theorem c3_reorder_per_step (to_extra : List String)
    (from_extra : List String) (i : Nat) (_hlen : i < to_extra.length) :
    (to_extra.getD i "" ∉ from_extra →
      reorderStep to_extra (some from_extra) i = some (.removeDir (i + 1))) ∧
    (reorderStep to_extra none i = some (.removeDir (i + 1))) ∧
    (to_extra.getD i "" ∈ from_extra →
      from_extra.indexOf (to_extra.getD i "") + 1 ≠ i + 1 →
      reorderStep to_extra (some from_extra) i =
        some (.renameDir (i + 1)
          (from_extra.indexOf (to_extra.getD i "") + 1))) ∧
    (to_extra.getD i "" ∈ from_extra →
      from_extra.indexOf (to_extra.getD i "") + 1 = i + 1 →
      reorderStep to_extra (some from_extra) i = none) ∧
    (∀ (fe : Option (List String)) (j : Nat) (act : ReorderAction),
      reorderStep to_extra fe j = some act →
      act = .removeDir (j + 1) ∨ ∃ t, act = .renameDir (j + 1) t) := by
  refine ⟨?_, ?_, ?_, ?_, ?_⟩
  · intro hmem
    unfold reorderStep
    rw [get_extra_index_eq, if_neg hmem]
    simp
  · unfold reorderStep
    simp [get_extra_index]
  · intro hmem hne
    unfold reorderStep
    rw [get_extra_index_eq, if_pos hmem]
    rw [if_neg (by omega), if_pos (by omega)]
    have ht : ((from_extra.indexOf (to_extra.getD i "") : Int) + 1).toNat =
        from_extra.indexOf (to_extra.getD i "") + 1 := by omega
    rw [ht]
  · intro hmem heq
    unfold reorderStep
    rw [get_extra_index_eq, if_pos hmem]
    rw [if_neg (by omega), if_neg (by omega)]
  · intro fe j act hact
    simp only [reorderStep] at hact
    split at hact
    · exact Or.inl (by injection hact with h1; exact h1.symm)
    · split at hact
      · exact Or.inr ⟨_, by injection hact with h1; exact h1.symm⟩
      · exact absurd hact (by simp)

/-- Witness for `c3_reorder_per_step` on concrete lists. -/
theorem c3_reorder_per_step_witness :
    reorderStep ["a", "b"] (some ["c"]) 0 = some (.removeDir 1) ∧
    reorderStep ["a", "b"] (some ["b", "a"]) 0 = some (.renameDir 1 2) ∧
    reorderStep ["a", "b"] (some ["a"]) 0 = none :=
  have h0 := c3_reorder_per_step ["a", "b"] ["c"] 0 (by decide)
  have h1 := c3_reorder_per_step ["a", "b"] ["b", "a"] 0 (by decide)
  have h2 := c3_reorder_per_step ["a", "b"] ["a"] 0 (by decide)
  ⟨h0.1 (by decide), h1.2.2.1 (by decide) (by decide),
   h2.2.2.2.1 (by decide) (by decide)⟩

/-- C3 counterexample: with destination paths `["a", "b"]` and source
paths `["b", "a"]` (the two directories swap positions), the very
first step renames container 1 onto position 2, which is still
occupied by the original container of the not-yet-processed second
destination entry — so "no rename ever targets a position still
occupied by a not-yet-processed original container (collisions are
impossible)" is false as stated. -/
theorem c3_collision_counterexample :
    ¬ reorderCollisionFree ["a", "b"] (some ["b", "a"]) := by
  intro h
  exact h 0 2 (by decide) (by decide)

/-!
### Concurrent Merge Executor: worker of `merge_files` (merge.c:432-653)
-/

/-- `S_ISDIR` / `S_ISREG` / symlink classification of a manifest
entry's mode bits. -/
inductive FileKind
  | fDir
  | fReg
  | fLink
deriving DecidableEq, Repr

/-- The fields of `pgFile` that `merge.c` reads or writes.  `path` is
the relative path (the worker temporarily rewrites it to an absolute
path and restores it, modelled by keeping it relative and carrying
absolute paths in the events). -/
structure PgFile where
  path : String
  name : String
  kind : FileKind
  write_size : Int
  n_blocks : Int
  crc : Nat
  compress_alg : CompressAlg
  is_datafile : Bool
  is_cfs : Bool
  extra_dir_num : Nat
  size : Int
deriving DecidableEq, Repr

/-- `join_path_components`. -/
def joinPath (a b : String) : String := a ++ "/" ++ b

/-- `makeExtraDirPathByNum(ret, pfx, n)`: numbered container path. -/
def makeExtraDirPathByNum (pfx : String) (n : Int) : String :=
  pfx ++ "/" ++ toString n

/-- File I/O the worker performs through the external collaborators
(`restore_data_file`, `backup_data_file`, `unlink`,
`copy_pgcontrol_file`, `copy_file`). -/
inductive FsEvent
  | restoreFile (target : String) (source : String) (delta : Bool)
      (inPlace : Bool)
  | backupFile (target : String) (source : String)
  | unlinkFile (path : String)
  | copyControl (fromRoot toRoot : String)
  | copyFile (fromRoot toRoot : String) (rel : String)
deriving DecidableEq, Repr

/-- Results of the external collaborators the worker consults:
`pgFileSize`, `pgFileGetCRC`, the `write_size`/`crc` that
`backup_data_file` records for a target path, and whether any of the
I/O for a given file raises `elog(ERROR)`. -/
structure FsOracle where
  fileSize : String → Int
  fileCRC : String → Nat
  bdWriteSize : String → Int
  bdCRC : String → Nat
  actionFails : PgFile → Bool

/-- `merge_files_arg` (merge.c:17-35) minus the thread-return field.
The source's `to_extra_prefix` / `from_extra_prefix` fields are named
`to_extra_pfx` / `from_extra_pfx` here. -/
structure MergeArgs where
  to_files : List PgFile
  from_extra : Option (List String)
  to_backup : PgBackup
  from_backup : PgBackup
  to_root : String
  from_root : String
  to_extra_pfx : String
  from_extra_pfx : String

/-- Destination container number the code computes for an
auxiliary-directory file (merge.c:620-625): the path string at the
file's stored index in the SOURCE backup's list, looked up again in
that same source list by `get_extra_index`. -/
def codeDestDirNum (from_extra : Option (List String)) (n : Nat) : Int :=
  get_extra_index ((from_extra.getD []).getD (n - 1) "") from_extra

/-- Destination container number as claim C6 words it ("resolve the
destination root by re-deriving the new index via path-value lookup in
the DESTINATION's auxiliary-directory list"); stated from the spec's
words for comparison with `codeDestDirNum`. -/
def claimDestDirNum (from_extra to_extra : Option (List String))
    (n : Nat) : Int :=
  get_extra_index ((from_extra.getD []).getD (n - 1) "") to_extra

/-- Non-skip action of one worker iteration (merge.c:492-633): the
updated entry before the unconditional compression-tag overwrite of
merge.c:635-639, together with the file I/O performed. -/
def mergeOneFileAction (ora : FsOracle) (args : MergeArgs) (file : PgFile)
    (to_file : Option PgFile) : PgFile × List FsEvent :=
  -- merge.c:493-505: absolute source path
  if file.is_datafile ∧ ¬ file.is_cfs then
    -- merge.c:514-611: block merge of a tracked data file
    if args.to_backup.compress_alg = .algPglz ∨
        args.to_backup.compress_alg = .algZlib then
      -- temp-file dance (merge.c:524-592): decode `to` (if present) and
      -- `from` into the temp file, re-encode, unlink the temp file
      ({ file with
          size := ora.fileSize (joinPath args.to_root file.path ++ "_tmp"),
          write_size := ora.bdWriteSize (joinPath args.to_root file.path),
          crc := ora.bdCRC (joinPath args.to_root file.path) },
        (match to_file with
         | some _ => [FsEvent.restoreFile
             (joinPath args.to_root file.path ++ "_tmp")
             (joinPath args.to_root file.path) false false]
         | none => []) ++
        [FsEvent.restoreFile (joinPath args.to_root file.path ++ "_tmp")
          (if file.extra_dir_num ≠ 0 then
            joinPath (makeExtraDirPathByNum args.from_extra_pfx
              (file.extra_dir_num : Int)) file.path
           else joinPath args.from_root file.path)
          (args.from_backup.backup_mode = .mDelta) false,
         FsEvent.backupFile (joinPath args.to_root file.path)
           (joinPath args.to_root file.path ++ "_tmp"),
         FsEvent.unlinkFile (joinPath args.to_root file.path ++ "_tmp")])
    else
      -- in-place merge (merge.c:597-611), then recompute size/checksum
      ({ file with
          write_size := ora.fileSize (joinPath args.to_root file.path),
          crc := ora.fileCRC (joinPath args.to_root file.path) },
        [FsEvent.restoreFile (joinPath args.to_root file.path)
          (if file.extra_dir_num ≠ 0 then
            joinPath (makeExtraDirPathByNum args.from_extra_pfx
              (file.extra_dir_num : Int)) file.path
           else joinPath args.from_root file.path)
          (args.from_backup.backup_mode = .mDelta) true])
  else if file.name = "pg_control" then
    -- merge.c:613-614: dedicated control-file transplant
    (file, [FsEvent.copyControl args.from_root args.to_root])
  else if file.extra_dir_num ≠ 0 then
    -- merge.c:615-631: auxiliary-directory copy between numbered roots
    (file, [FsEvent.copyFile
      (makeExtraDirPathByNum args.from_extra_pfx (file.extra_dir_num : Int))
      (makeExtraDirPathByNum args.to_extra_pfx
        (codeDestDirNum args.from_extra file.extra_dir_num))
      file.path])
  else
    -- merge.c:632-633: plain copy
    (file, [FsEvent.copyFile args.from_root args.to_root file.path])

/-- Unconditional compression-tag overwrite of merge.c:635-639: after
any non-skip action, record the destination backup's algorithm. -/
def withDestAlg (dest : CompressAlg) (p : PgFile × List FsEvent) :
    PgFile × List FsEvent :=
  ({ p.1 with compress_alg := dest }, p.2)

/-- One claimed non-directory entry of the worker loop of
`merge_files` (merge.c:441-647): `none` when the action raised
`elog(ERROR)` (terminating the worker thread with its failure flag
still set). -/
def mergeOneFile (ora : FsOracle) (args : MergeArgs) (file : PgFile) :
    Option (PgFile × List FsEvent) :=
  -- merge.c:464-466: look the path up in the destination's old manifest
  -- merge.c:473-490: skip entries unchanged since the previous backup
  if file.write_size = BYTES_INVALID ∧ file.n_blocks = -1 then
    match args.to_files.find? (fun tf => tf.path = file.path) with
    | some tf =>
      some ({ file with
          compress_alg := tf.compress_alg,
          write_size := tf.write_size,
          crc := tf.crc }, [])
    | none => some (file, [])
  else if ora.actionFails file then none
  else
    some (withDestAlg args.to_backup.compress_alg
      (mergeOneFileAction ora args file
        (args.to_files.find? (fun tf => tf.path = file.path))))

/-- Worker body of `merge_files` (merge.c:441-653).  The argument list
is the subsequence of manifest entries whose claim flag this worker
won; entries are visited in manifest order.  Returns the updated
entries the worker reached, the paths it attempted (claimed
non-directory entries), and the thread's `ret` value: initialised to 1
by the orchestrator (merge.c:301) and set to 0 only after the loop
completes (merge.c:650), so an `elog(ERROR)` mid-loop ends the thread
with `ret = 1`. -/
def workerRun (ora : FsOracle) (args : MergeArgs) (intr : Bool) :
    List PgFile → List PgFile × List String × Nat
  | [] => ([], [], 0)
  | file :: rest =>
    if intr then
      -- merge.c:453-454: interrupt observed, the thread dies
      ([], [], 1)
    else if file.kind = .fDir then
      -- merge.c:457-458: directories were created before
      let r := workerRun ora args intr rest
      (file :: r.1, r.2.1, r.2.2)
    else
      match mergeOneFile ora args file with
      | none => ([file], [file.path], 1)
      | some fe =>
        let r := workerRun ora args intr rest
        (fe.1 :: r.1, file.path :: r.2.1, r.2.2)

/-- Join barrier of the orchestrator (merge.c:309-316): the value of
`merge_isok` after inspecting every worker's `ret`. -/
def joinWorkersOk (rets : List Nat) : Bool :=
  rets.foldl (fun ok r => if r = 1 then false else ok) true

/-!
### Concrete fixtures for the worker theorems
-/

/-- Oracle with fixed collaborator results and no failures. -/
def exOra : FsOracle :=
  { fileSize := fun _ => 33, fileCRC := fun _ => 5,
    bdWriteSize := fun _ => 44, bdCRC := fun _ => 6,
    actionFails := fun _ => false }

/-- Build a manifest entry varying the fields the worker dispatches on. -/
def mkFile (p : String) (k : FileKind) (ws nb : Int) (alg : CompressAlg)
    (dnum : Nat) : PgFile :=
  { path := p, name := p, kind := k, write_size := ws, n_blocks := nb,
    crc := 0, compress_alg := alg, is_datafile := false, is_cfs := false,
    extra_dir_num := dnum, size := 0 }

/-- Destination-manifest entry at path `t1`. -/
def exToFile : PgFile := { mkFile "t1" .fReg 100 8 .algNone 0 with crc := 42 }

/-- Unchanged-sentinel source entry at the same path `t1`. -/
def exSkipFile : PgFile := mkFile "t1" .fReg BYTES_INVALID (-1) .algPglz 0

/-- Worker argument block: destination backup compresses with zlib and
knows auxiliary directories `["b", "a"]`; source knows `["a"]`. -/
def exArgs : MergeArgs :=
  { to_files := [exToFile], from_extra := some ["a"],
    to_backup := { dummyBackup with
      compress_alg := .algZlib, extra_dir_str := some ["b", "a"] },
    from_backup := { dummyBackup with backup_mode := .mDelta },
    to_root := "TR", from_root := "FR",
    to_extra_pfx := "TP", from_extra_pfx := "FP" }

/-!
### Claim C4
-/

/-- C4: for a source-manifest entry carrying both unchanged sentinels
(`write_size == BYTES_INVALID && n_blocks == -1`, merge.c:473) the
worker performs no file I/O (empty event list); when a same-path entry
exists in the destination's old manifest the entry's compression tag,
write size and checksum become exactly that old entry's values
(merge.c:482-487), otherwise all three are left untouched. -/
theorem c4_skip_preserves_metadata (ora : FsOracle) (args : MergeArgs)
    (file : PgFile) (h1 : file.write_size = BYTES_INVALID)
    (h2 : file.n_blocks = -1) :
    (∀ tf, args.to_files.find? (fun g => g.path = file.path) = some tf →
      mergeOneFile ora args file =
        some ({ file with
            compress_alg := tf.compress_alg,
            write_size := tf.write_size,
            crc := tf.crc }, [])) ∧
    (args.to_files.find? (fun g => g.path = file.path) = none →
      mergeOneFile ora args file = some (file, [])) := by
  constructor
  · intro tf htf
    unfold mergeOneFile
    rw [if_pos ⟨h1, h2⟩, htf]
  · intro hn
    unfold mergeOneFile
    rw [if_pos ⟨h1, h2⟩, hn]

/-- Witness for `c4_skip_preserves_metadata`: both branches on concrete
entries. -/
theorem c4_skip_preserves_metadata_witness :
    mergeOneFile exOra exArgs exSkipFile =
      some ({ exSkipFile with
          compress_alg := exToFile.compress_alg,
          write_size := exToFile.write_size,
          crc := exToFile.crc }, []) ∧
    mergeOneFile exOra { exArgs with to_files := [] } exSkipFile =
      some (exSkipFile, []) :=
  ⟨(c4_skip_preserves_metadata exOra exArgs exSkipFile rfl rfl).1
      exToFile rfl,
   (c4_skip_preserves_metadata exOra { exArgs with to_files := [] }
      exSkipFile rfl rfl).2 rfl⟩

/-!
### Claim C5
-/

/-- C5 (amended): for every entry whose planned action is not the
unchanged-sentinel Skip, a successful worker action records the
destination backup's compression algorithm on the entry
(merge.c:635-639).  In the Skip branch the worker `continue`s at
merge.c:489 before that overwrite, so the tag is instead the old
destination entry's tag (same-path entry present) or is left
untouched, as the C4 theorem above establishes; the claim's
"including Skip" is refuted by `c5_skip_counterexample`. -/
theorem c5_nonskip_records_dest_alg (ora : FsOracle) (args : MergeArgs)
    (file f' : PgFile) (evs : List FsEvent)
    (h : ¬(file.write_size = BYTES_INVALID ∧ file.n_blocks = -1))
    (hres : mergeOneFile ora args file = some (f', evs)) :
    f'.compress_alg = args.to_backup.compress_alg := by
  unfold mergeOneFile at hres
  rw [if_neg h] at hres
  split at hres
  · exact absurd hres (by simp)
  · injection hres with hres
    have h1 := congrArg Prod.fst hres
    simp only [withDestAlg] at h1
    rw [← h1]

/-- Source entry changed since its parent, plain-copy action. -/
def exC5File : PgFile := mkFile "c5" .fReg 10 3 .algPglz 0

/-- Witness for `c5_nonskip_records_dest_alg`. -/
theorem c5_nonskip_records_dest_alg_witness :
    ({ exC5File with compress_alg := CompressAlg.algZlib } :
      PgFile).compress_alg = exArgs.to_backup.compress_alg :=
  c5_nonskip_records_dest_alg exOra exArgs exC5File
    { exC5File with compress_alg := .algZlib }
    [.copyFile "FR" "TR" "c5"] (by decide) rfl

/-- Unchanged-sentinel entry whose old destination entry used no
compression, in a pair whose destination compresses with zlib. -/
def exC5SkipFile : PgFile := mkFile "c5s" .fReg BYTES_INVALID (-1) .algPglz 0

/-- Old destination entry for `exC5SkipFile`. -/
def exC5OldFile : PgFile := { mkFile "c5s" .fReg 77 4 .algNone 0 with crc := 9 }

/-- Argument block for the C5 counterexample. -/
def exC5Args : MergeArgs := { exArgs with to_files := [exC5OldFile] }

/-- C5 counterexample: after the Skip action the entry's recorded tag
is the old destination entry's `algNone`, not the destination backup's
`algZlib`; so "for every action of the decision table, including Skip,
the entry's recorded compression tag equals the destination backup's
compression algorithm" is false as stated. -/
theorem c5_skip_counterexample :
    mergeOneFile exOra exC5Args exC5SkipFile =
      some ({ exC5SkipFile with
          compress_alg := .algNone, write_size := 77, crc := 9 }, []) ∧
    CompressAlg.algNone ≠ exC5Args.to_backup.compress_alg :=
  ⟨rfl, by decide⟩

/-!
### Claim C6
-/

/-- On a duplicate-free list, looking an element up again yields its
own 1-based position. -/
theorem get_extra_index_getD (l : List String) (hnd : l.Nodup) (k : Nat)
    (hk : k < l.length) :
    get_extra_index (l.getD k "") (some l) = (k : Int) + 1 := by
  rw [get_extra_index_eq, List.getD_eq_getElem l "" hk,
    if_pos (List.getElem_mem hk), List.indexOf_getElem hnd k hk]

/-- C6 (amended): for a non-data, non-control file entry belonging to
an auxiliary directory, the worker resolves the source root from the
entry's stored index `n` into the source backup's list, and resolves
the destination root by looking the path string at that index up in
the SOURCE backup's list again (merge.c:620-625) — not in the
destination's list as the claim states, see
`c6_lookup_counterexample`.  The source list having distinct entries,
the lookup re-yields `n` itself, which is correct because the
reconciler renumbered the destination's containers to the source's
numbering beforehand (merge.c:261-266); the file is then plain-copied
between the two resolved roots. -/
theorem c6_extra_dir_roots (ora : FsOracle) (args : MergeArgs)
    (file : PgFile) (l : List String)
    (hskip : ¬(file.write_size = BYTES_INVALID ∧ file.n_blocks = -1))
    (hfail : ora.actionFails file = false)
    (hdf : ¬(file.is_datafile ∧ ¬ file.is_cfs))
    (hctl : file.name ≠ "pg_control")
    (hnum : file.extra_dir_num ≠ 0)
    (hfe : args.from_extra = some l) (hnd : l.Nodup)
    (hlt : file.extra_dir_num - 1 < l.length) :
    codeDestDirNum args.from_extra file.extra_dir_num =
      (file.extra_dir_num : Int) ∧
    mergeOneFile ora args file =
      some ({ file with compress_alg := args.to_backup.compress_alg },
        [.copyFile
          (makeExtraDirPathByNum args.from_extra_pfx
            (file.extra_dir_num : Int))
          (makeExtraDirPathByNum args.to_extra_pfx
            (file.extra_dir_num : Int))
          file.path]) := by
  have hcode : codeDestDirNum args.from_extra file.extra_dir_num =
      (file.extra_dir_num : Int) := by
    unfold codeDestDirNum
    rw [hfe]
    simp only [Option.getD_some]
    rw [get_extra_index_getD l hnd _ hlt]
    omega
  refine ⟨hcode, ?_⟩
  unfold mergeOneFile
  rw [if_neg hskip, if_neg (by simp [hfail])]
  unfold mergeOneFileAction
  rw [if_neg hdf, if_neg hctl, if_pos hnum, hcode]
  rfl

/-- Auxiliary-directory file entry (index 1) with changed content. -/
def exC6File : PgFile := mkFile "e1" .fReg 10 3 .algPglz 1

/-- Witness for `c6_extra_dir_roots`. -/
theorem c6_extra_dir_roots_witness :
    codeDestDirNum exArgs.from_extra 1 = 1 ∧
    mergeOneFile exOra exArgs exC6File =
      some ({ exC6File with compress_alg := .algZlib },
        [.copyFile (makeExtraDirPathByNum "FP" 1)
          (makeExtraDirPathByNum "TP" 1) "e1"]) :=
  have h := c6_extra_dir_roots exOra exArgs exC6File ["a"] (by decide)
    rfl (by decide) (by decide) (by decide) rfl (by decide) (by decide)
  ⟨h.1, h.2⟩

/-- Second auxiliary-directory entry, for the counterexample. -/
def exC6xFile : PgFile := mkFile "e2" .fReg 10 3 .algPglz 1

/-- C6 counterexample: the worker's destination-root lookup runs over
the SOURCE backup's auxiliary-directory list, not the destination's.
With source list `["a"]` and destination list `["b", "a"]`, the
claim's destination-list lookup yields container 2 while the code
resolves container 1 (and copies into it); the two container paths
differ, so "resolves the destination root by looking up the
directory's path string in the destination's auxiliary-directory
list" is false as stated. -/
theorem c6_lookup_counterexample :
    codeDestDirNum (some ["a"]) 1 = 1 ∧
    claimDestDirNum (some ["a"]) exArgs.to_backup.extra_dir_str 1 = 2 ∧
    codeDestDirNum (some ["a"]) 1 ≠
      claimDestDirNum (some ["a"]) exArgs.to_backup.extra_dir_str 1 ∧
    mergeOneFile exOra exArgs exC6xFile =
      some ({ exC6xFile with compress_alg := .algZlib },
        [.copyFile (makeExtraDirPathByNum "FP" 1)
          (makeExtraDirPathByNum "TP" 1) "e2"]) ∧
    makeExtraDirPathByNum "TP" 1 ≠ makeExtraDirPathByNum "TP" 2 := by
  refine ⟨rfl, rfl, by decide, rfl, by decide⟩

/-!
### Claim C9
-/

/-- Folding the join with an already-false `merge_isok` stays false. -/
theorem joinFold_false :
    ∀ rets : List Nat,
    rets.foldl (fun ok r => if r = 1 then false else ok) false = false := by
  intro rets
  induction rets with
  | nil => rfl
  | cons r rest ih =>
    simp only [List.foldl_cons]
    split <;> exact ih

/-- Unfolding `workerRun` over a directory entry. -/
theorem workerRun_cons_dir (ora : FsOracle) (args : MergeArgs)
    (file : PgFile) (rest : List PgFile) (h : file.kind = .fDir) :
    workerRun ora args false (file :: rest) =
      (file :: (workerRun ora args false rest).1,
       (workerRun ora args false rest).2.1,
       (workerRun ora args false rest).2.2) := by
  simp [workerRun, h]

/-- Unfolding `workerRun` over a failing non-directory entry. -/
theorem workerRun_cons_fail (ora : FsOracle) (args : MergeArgs)
    (file : PgFile) (rest : List PgFile) (h : file.kind ≠ .fDir)
    (hm : mergeOneFile ora args file = none) :
    workerRun ora args false (file :: rest) = ([file], [file.path], 1) := by
  simp [workerRun, h, hm]

/-- Unfolding `workerRun` over a successful non-directory entry. -/
theorem workerRun_cons_ok (ora : FsOracle) (args : MergeArgs)
    (file : PgFile) (rest : List PgFile) (fe : PgFile × List FsEvent)
    (h : file.kind ≠ .fDir) (hm : mergeOneFile ora args file = some fe) :
    workerRun ora args false (file :: rest) =
      (fe.1 :: (workerRun ora args false rest).1,
       file.path :: (workerRun ora args false rest).2.1,
       (workerRun ora args false rest).2.2) := by
  simp [workerRun, h, hm]

/-- C9 (amended): a failing file action terminates that worker — its
failure flag, initialised to 1 and cleared only after the whole loop
(merge.c:301, 650), stays set and the remaining claimed files are NOT
attempted by this worker (the claim's "continues claiming and
attempting the remaining unclaimed files" is refuted by
`c9_stop_counterexample`); the flag is cleared exactly when every
claimed entry succeeds; and at the join barrier a single worker's set
flag makes the whole pair merge fail (merge.c:309-316). -/
theorem c9_worker_failure_semantics :
    (∀ (ora : FsOracle) (args : MergeArgs) (files : List PgFile),
      ((workerRun ora args false files).2.2 = 0 ↔
        ∀ file ∈ files, file.kind = .fDir ∨
          mergeOneFile ora args file ≠ none)) ∧
    (∀ (ora : FsOracle) (args : MergeArgs) (pre : List PgFile)
       (bad : PgFile) (post : List PgFile),
      (∀ file ∈ pre, file.kind = .fDir ∨ mergeOneFile ora args file ≠ none) →
      bad.kind ≠ .fDir → mergeOneFile ora args bad = none →
      (workerRun ora args false (pre ++ bad :: post)).2.1 =
        (workerRun ora args false pre).2.1 ++ [bad.path] ∧
      (workerRun ora args false (pre ++ bad :: post)).2.2 = 1) ∧
    (∀ rets : List Nat, 1 ∈ rets → joinWorkersOk rets = false) := by
  refine ⟨?_, ?_, ?_⟩
  · intro ora args files
    induction files with
    | nil => simp [workerRun]
    | cons file rest ih =>
      by_cases hk : file.kind = .fDir
      · simp only [workerRun, if_neg (by simp : ¬((false : Bool) = true)),
          if_pos hk, List.forall_mem_cons]
        rw [ih]
        simp [hk]
      · simp only [workerRun, if_neg (by simp : ¬((false : Bool) = true)),
          if_neg hk]
        cases hm : mergeOneFile ora args file with
        | none => simp [hm, hk]
        | some fe =>
          simp only [List.forall_mem_cons]
          rw [ih]
          simp [hm, hk]
  · intro ora args pre bad post hpre hbad hmbad
    induction pre with
    | nil =>
      rw [List.nil_append, workerRun_cons_fail ora args bad post hbad hmbad]
      exact ⟨rfl, rfl⟩
    | cons p pre ih =>
      have htail := fun x hx => hpre x (List.mem_cons_of_mem p hx)
      have ihres := ih htail
      by_cases hk : p.kind = .fDir
      · rw [List.cons_append,
          workerRun_cons_dir ora args p (pre ++ bad :: post) hk,
          workerRun_cons_dir ora args p pre hk]
        exact ihres
      · rcases hpre p (List.mem_cons_self p pre) with hp | hp
        · exact absurd hp hk
        · cases hm : mergeOneFile ora args p with
          | none => exact absurd hm hp
          | some fe =>
            rw [List.cons_append,
              workerRun_cons_ok ora args p (pre ++ bad :: post) fe hk hm,
              workerRun_cons_ok ora args p pre fe hk hm]
            exact ⟨by rw [List.cons_append, ihres.1], ihres.2⟩
  · intro rets
    induction rets with
    | nil => intro h; simp at h
    | cons r rest ih =>
      intro hmem
      rcases List.mem_cons.mp hmem with h | h
      · subst h
        simp only [joinWorkersOk, List.foldl_cons, if_pos rfl]
        exact joinFold_false rest
      · by_cases hr : r = 1
        · subst hr
          simp only [joinWorkersOk, List.foldl_cons, if_pos rfl]
          exact joinFold_false rest
        · simp only [joinWorkersOk, List.foldl_cons, if_neg hr]
          exact ih h

/-- Oracle failing exactly on path `w2`. -/
def exOraFail : FsOracle := { exOra with actionFails := fun f => f.path = "w2" }

/-- Three regular claimed files. -/
def exW1 : PgFile := mkFile "w1" .fReg 10 3 .algPglz 0

/-- Second claimed file; its action fails under `exOraFail`. -/
def exW2 : PgFile := mkFile "w2" .fReg 10 3 .algPglz 0

/-- Third claimed file, never reached by the failing worker. -/
def exW3 : PgFile := mkFile "w3" .fReg 10 3 .algPglz 0

/-- Witness for `c9_worker_failure_semantics` on concrete runs. -/
theorem c9_worker_failure_semantics_witness :
    (workerRun exOra exArgs false [exW1]).2.2 = 0 ∧
    (workerRun exOraFail exArgs false [exW1, exW2, exW3]).2.1 =
      (workerRun exOraFail exArgs false [exW1]).2.1 ++ ["w2"] ∧
    joinWorkersOk [0, 1, 0] = false :=
  ⟨(c9_worker_failure_semantics.1 exOra exArgs [exW1]).mpr (by decide),
   (c9_worker_failure_semantics.2.1 exOraFail exArgs [exW1] exW2 [exW3]
     (by decide) (by decide) rfl).1,
   c9_worker_failure_semantics.2.2 [0, 1, 0] (by decide)⟩

/-- C9 counterexample: of three claimed regular files the second
fails; the worker attempts only the first two, ends with its failure
flag set, and never attempts the third — refuting "the worker
continues claiming and attempting the remaining unclaimed files". -/
theorem c9_stop_counterexample :
    (workerRun exOraFail exArgs false [exW1, exW2, exW3]).2.1 =
      ["w1", "w2"] ∧
    (workerRun exOraFail exArgs false [exW1, exW2, exW3]).2.2 = 1 ∧
    "w3" ∉ (workerRun exOraFail exArgs false [exW1, exW2, exW3]).2.1 := by
  refine ⟨rfl, rfl, by decide⟩

/-!
### Pair Merge Orchestrator: `merge_backups` (merge.c:161-427)
-/

/-- Observable steps of the orchestrator: validations (with the
status the backup had when the call was made), the truth value of the
`Assert` at merge.c:200-201, status persists, directory work, and the
DeletingSource phase's per-entry auxiliary-directory membership test
(recording the `to_extra` list in effect at that moment). -/
inductive MEvent
  | validateTo (statusAtCall : BackupStatus)
  | assertFromStatus (holds : Bool)
  | validateFrom (statusAtCall : BackupStatus)
  | writeStatus (id : Nat) (st : BackupStatus)
  | createDataDirs
  | reorder (acts : List ReorderAction)
  | deleteSourceFiles (id : Nat)
  | extraDirTest (to_extra : Option (List String)) (dirNum : Nat)
  | deleteStale (relPath : String)
  | renameBackupDir (oldId newId : Nat)
deriving DecidableEq, Repr

/-- `parray_get` on a string parray that may be NULL: the source
relies on the array being non-NULL (cf. the `Assert(argument->from_extra)`
before the analogous lookup at merge.c:620-623); a NULL array or an
out-of-range index is undefined in C and modelled as `none`. -/
def parrayGetStr : Option (List String) → Nat → Option String
  | none, _ => none
  | some l, i => l.get? i

/-- `backup_contains_extra` collaborator (declared outside merge.c).
Modelled from the spec: "except entries under an auxiliary directory
that the reconciliation step already physically removed, detected by
index lookup" — membership of the directory path in the source
backup's list; the undefined NULL lookups surface as `false`.  No
claim's verdict depends on this truth table, only on the recorded
`extraDirTest` events. -/
def backup_contains_extra (dir : Option String)
    (dirs : Option (List String)) : Bool :=
  match dir, dirs with
  | some d, some l => l.contains d
  | _, _ => false

/-- Aggregate-size recomputation of merge.c:336-347: 4096 per
directory entry, `write_size` per regular entry, nothing for links. -/
def computeDataBytes (files : List PgFile) : Int :=
  files.foldl
    (fun acc file =>
      if file.kind = .fDir then acc + 4096
      else if file.kind = .fReg then acc + file.write_size
      else acc) 0

/-- WAL-byte recomputation of merge.c:348-354, after the stream flags
have been ANDed and the LSN range adopted from the source. -/
def computeWalBytes (segSize : Nat) (stream : Bool)
    (startLsn stopLsn : Nat) : Int :=
  if !stream then
    ((segSize * (stopLsn / segSize - startLsn / segSize + 1) : Nat) : Int)
  else BYTES_INVALID

/-- Membership tests and stale deletions of the DeletingSource loop
(merge.c:370-396), visiting the destination's old manifest in order:
an entry with a nonzero auxiliary-directory index is first tested
against `to_extra` (recorded as `extraDirTest`); entries absent from
the source manifest are deleted. -/
def staleLoopEvents (to_files files : List PgFile)
    (to_extra from_extra : Option (List String)) : List MEvent :=
  to_files.foldl
    (fun acc file =>
      if file.extra_dir_num ≠ 0 then
        if backup_contains_extra
            (parrayGetStr to_extra (file.extra_dir_num - 1)) from_extra then
          acc ++ [MEvent.extraDirTest to_extra file.extra_dir_num]
        else if (files.find? (fun g => g.path = file.path)).isNone then
          acc ++ [MEvent.extraDirTest to_extra file.extra_dir_num,
            MEvent.deleteStale file.path]
        else
          acc ++ [MEvent.extraDirTest to_extra file.extra_dir_num]
      else if (files.find? (fun g => g.path = file.path)).isNone then
        acc ++ [MEvent.deleteStale file.path]
      else acc) []

/-- `delete_source_backup` tail of `merge_backups` (merge.c:360-410):
delete the source backup's artifacts, prune stale destination entries,
rename the destination directory to the source's identifier and adopt
that identifier. -/
def deleteSourcePhase (to1 from1 : PgBackup) (to_files files : List PgFile)
    (to_extra from_extra : Option (List String)) :
    PgBackup × List MEvent :=
  ({ to1 with start_time := from1.start_time },
   MEvent.deleteSourceFiles from1.start_time ::
     staleLoopEvents to_files files to_extra from_extra ++
     [MEvent.renameBackupDir to1.start_time from1.start_time])

/-- The `merge_files_arg` block the orchestrator hands every worker
(merge.c:287-306), with both statuses already set to MERGING. -/
def mergingArgs (to1 from1 : PgBackup) (to_files : List PgFile)
    (to_root from_root to_pfx from_pfx : String) : MergeArgs :=
  { to_files := to_files, from_extra := from1.extra_dir_str,
    to_backup := { to1 with status := .stMerging },
    from_backup := { from1 with status := .stMerging },
    to_root := to_root, from_root := from_root,
    to_extra_pfx := to_pfx, from_extra_pfx := from_pfx }

/-- Preparing / Merging / Finalizing / DeletingSource on the normal
(non-resume) path (merge.c:244-410): persist MERGING on both backups,
create directories, reorder the destination's auxiliary containers,
run the workers, recompute the destination's metadata from the merged
manifest, and fall through into the DeletingSource phase with the
built auxiliary-directory lists. -/
def mergeBackupsNormal (ora : FsOracle) (intr : Bool) (segSize : Nat)
    (to1 from1 : PgBackup) (to_files files : List PgFile)
    (to_root from_root to_pfx from_pfx : String) (evB : List MEvent) :
    Except MergeError PgBackup × List MEvent :=
  let evC := evB ++
    [MEvent.writeStatus to1.start_time .stMerging,
     MEvent.writeStatus from1.start_time .stMerging,
     MEvent.createDataDirs] ++
    (match to1.extra_dir_str with
     | some l => [MEvent.reorder (reorderActions l from1.extra_dir_str)]
     | none => [])
  let args := mergingArgs to1 from1 to_files to_root from_root to_pfx from_pfx
  if (workerRun ora args intr files).2.2 = 1 then
    (.error .mergeFailed, evC)
  else
    let files1 := (workerRun ora args intr files).1
    let to3 : PgBackup := { to1 with
      status := .stOK, parent_backup := INVALID_BACKUP_ID,
      start_lsn := from1.start_lsn, stop_lsn := from1.stop_lsn,
      recovery_time := from1.recovery_time,
      recovery_xid := from1.recovery_xid,
      extra_dir_str := from1.extra_dir_str,
      stream := to1.stream && from1.stream,
      data_bytes := computeDataBytes files1,
      wal_bytes := computeWalBytes segSize (to1.stream && from1.stream)
        from1.start_lsn from1.stop_lsn }
    (.ok (deleteSourcePhase to3 { from1 with status := .stMerging }
        to_files files1 to1.extra_dir_str from1.extra_dir_str).1,
      evC ++ (deleteSourcePhase to3 { from1 with status := .stMerging }
        to_files files1 to1.extra_dir_str from1.extra_dir_str).2)

/-- `merge_backups` after the `to`-validation (merge.c:196-242): the
`Assert(from OK || MERGING)` is evaluated and `from` validated BEFORE
the DELETING resume check at merge.c:241; on the resume path the
auxiliary-directory lists are never built, so the DeletingSource
phase runs with both lists NULL. -/
def mergeBackupsAfterToVal (validateStatus : PgBackup → BackupStatus)
    (ora : FsOracle) (intr : Bool) (segSize : Nat)
    (to1 frm : PgBackup) (to_files files : List PgFile)
    (to_root from_root to_pfx from_pfx : String) (evTo : List MEvent) :
    Except MergeError PgBackup × List MEvent :=
  let evB := evTo ++
    [MEvent.assertFromStatus
      (decide (frm.status = .stOK ∨ frm.status = .stMerging)),
     MEvent.validateFrom frm.status]
  if validateStatus frm = .stCorrupt then
    (.error .interruptMerging, evB)
  else if validateStatus frm = .stDeleting then
    (.ok (deleteSourcePhase to1 { frm with status := validateStatus frm }
        to_files files none none).1,
      evB ++ (deleteSourcePhase to1
        { frm with status := validateStatus frm }
        to_files files none none).2)
  else
    mergeBackupsNormal ora intr segSize to1
      { frm with status := validateStatus frm }
      to_files files to_root from_root to_pfx from_pfx evB

/-- `merge_backups` (merge.c:161-427), with `pgBackupValidate`
abstracted as `validateStatus` (the status it leaves on the backup),
the worker-pool collapse of `workerRun`, and every external side
effect recorded as an event.  `to_files` / `files` are the two
manifests read at merge.c:225-235. -/
def mergeBackups (validateStatus : PgBackup → BackupStatus)
    (ora : FsOracle) (intr : Bool) (segSize : Nat)
    (toB frm : PgBackup) (to_files files : List PgFile)
    (to_root from_root to_pfx from_pfx : String) :
    Except MergeError PgBackup × List MEvent :=
  if toB.status = .stOK then
    if validateStatus toB = .stCorrupt then
      (.error .interruptMerging, [MEvent.validateTo toB.status])
    else
      mergeBackupsAfterToVal validateStatus ora intr segSize
        { toB with status := validateStatus toB } frm to_files files
        to_root from_root to_pfx from_pfx [MEvent.validateTo toB.status]
  else
    mergeBackupsAfterToVal validateStatus ora intr segSize
      toB frm to_files files to_root from_root to_pfx from_pfx []

/-!
### Claim C8
-/

/-- The fold of merge.c:337-347 equals the sum of per-entry weights. -/
theorem computeDataBytes_eq_sum (files : List PgFile) :
    computeDataBytes files =
      (files.map fun file =>
        if file.kind = .fDir then (4096 : Int)
        else if file.kind = .fReg then file.write_size else 0).sum := by
  have h : ∀ (fs : List PgFile) (acc : Int),
      fs.foldl (fun acc file =>
        if file.kind = .fDir then acc + 4096
        else if file.kind = .fReg then acc + file.write_size
        else acc) acc =
      acc + (fs.map fun file =>
        if file.kind = .fDir then (4096 : Int)
        else if file.kind = .fReg then file.write_size else 0).sum := by
    intro fs
    induction fs with
    | nil => intro acc; simp
    | cons f rest ih =>
      intro acc
      simp only [List.foldl_cons, List.map_cons, List.sum_cons]
      rw [ih]
      split_ifs <;> ring
  simpa [computeDataBytes] using h files 0

/-- Finalizing facts shared by both `to`-validation branches. -/
theorem mergeBackupsAfterToVal_ok_metadata
    (validateStatus : PgBackup → BackupStatus) (ora : FsOracle)
    (intr : Bool) (segSize : Nat) (to1 frm : PgBackup)
    (to_files files : List PgFile)
    (to_root from_root to_pfx from_pfx : String) (evTo : List MEvent)
    (r : PgBackup) (evs : List MEvent)
    (hdel : validateStatus frm ≠ .stDeleting)
    (hres : mergeBackupsAfterToVal validateStatus ora intr segSize to1 frm
      to_files files to_root from_root to_pfx from_pfx evTo =
      (.ok r, evs)) :
    r.data_bytes =
      ((workerRun ora
          (mergingArgs to1 { frm with status := validateStatus frm }
            to_files to_root from_root to_pfx from_pfx) intr files).1.map
        fun file =>
          if file.kind = .fDir then (4096 : Int)
          else if file.kind = .fReg then file.write_size else 0).sum ∧
    r.stream = (to1.stream && frm.stream) ∧
    (r.stream = false → r.wal_bytes =
      ((segSize * (frm.stop_lsn / segSize - frm.start_lsn / segSize + 1) :
        Nat) : Int)) ∧
    (r.stream = true → r.wal_bytes = BYTES_INVALID) ∧
    r.start_lsn = frm.start_lsn ∧ r.stop_lsn = frm.stop_lsn ∧
    r.status = .stOK ∧ r.parent_backup = INVALID_BACKUP_ID ∧
    r.start_time = frm.start_time := by
  simp only [mergeBackupsAfterToVal] at hres
  by_cases hc : validateStatus frm = .stCorrupt
  · rw [if_pos hc] at hres
    exact absurd (congrArg Prod.fst hres) (by simp)
  · rw [if_neg hc, if_neg hdel] at hres
    simp only [mergeBackupsNormal] at hres
    split at hres
    · exact absurd (congrArg Prod.fst hres) (by simp)
    · have h1 := congrArg Prod.fst hres
      simp only [deleteSourcePhase] at h1
      injection h1 with h1
      subst h1
      refine ⟨computeDataBytes_eq_sum _, rfl, ?_, ?_, rfl, rfl, rfl, rfl,
        rfl⟩
      · intro hs
        have hb : (to1.stream && frm.stream) = false := hs
        show computeWalBytes segSize (to1.stream && frm.stream)
          frm.start_lsn frm.stop_lsn = _
        unfold computeWalBytes
        rw [hb]
        rfl
      · intro hs
        have hb : (to1.stream && frm.stream) = true := hs
        show computeWalBytes segSize (to1.stream && frm.stream)
          frm.start_lsn frm.stop_lsn = _
        unfold computeWalBytes
        rw [hb]
        rfl

/-- C8: after the finalizing step of a successful non-resume pair
merge, the destination's total data bytes equal the sum over the
(worker-updated) source manifest of each regular entry's write size
plus 4096 per directory entry (merge.c:336-347); its WAL bytes equal
`xlog_seg_size * (stop_lsn / seg - start_lsn / seg + 1)` over the
LSN range adopted from the source when the merged backup is
archive-based (the ANDed stream flag is false), or the invalid
sentinel when stream-captured (merge.c:348-354); it also adopts the
source's LSN range, status OK, an INVALID parent and the source's
identifier. -/
theorem c8_finalize_metadata
    (validateStatus : PgBackup → BackupStatus) (ora : FsOracle)
    (intr : Bool) (segSize : Nat) (toB frm : PgBackup)
    (to_files files : List PgFile)
    (to_root from_root to_pfx from_pfx : String) (r : PgBackup)
    (evs : List MEvent)
    (hdel : validateStatus frm ≠ .stDeleting)
    (hres : mergeBackups validateStatus ora intr segSize toB frm to_files
      files to_root from_root to_pfx from_pfx = (.ok r, evs)) :
    r.data_bytes =
      ((workerRun ora
          (mergingArgs
            (if toB.status = .stOK then
              { toB with status := validateStatus toB } else toB)
            { frm with status := validateStatus frm }
            to_files to_root from_root to_pfx from_pfx) intr files).1.map
        fun file =>
          if file.kind = .fDir then (4096 : Int)
          else if file.kind = .fReg then file.write_size else 0).sum ∧
    r.stream = (toB.stream && frm.stream) ∧
    (r.stream = false → r.wal_bytes =
      ((segSize * (frm.stop_lsn / segSize - frm.start_lsn / segSize + 1) :
        Nat) : Int)) ∧
    (r.stream = true → r.wal_bytes = BYTES_INVALID) ∧
    r.start_lsn = frm.start_lsn ∧ r.stop_lsn = frm.stop_lsn ∧
    r.status = .stOK ∧ r.parent_backup = INVALID_BACKUP_ID ∧
    r.start_time = frm.start_time := by
  unfold mergeBackups at hres
  by_cases hok : toB.status = .stOK
  · rw [if_pos hok] at hres
    by_cases hcor : validateStatus toB = .stCorrupt
    · rw [if_pos hcor] at hres
      exact absurd (congrArg Prod.fst hres) (by simp)
    · rw [if_neg hcor] at hres
      have h := mergeBackupsAfterToVal_ok_metadata validateStatus ora intr
        segSize { toB with status := validateStatus toB } frm to_files files
        to_root from_root to_pfx from_pfx [MEvent.validateTo toB.status]
        r evs hdel hres
      rw [if_pos hok]
      exact h
  · rw [if_neg hok] at hres
    have h := mergeBackupsAfterToVal_ok_metadata validateStatus ora intr
      segSize toB frm to_files files to_root from_root to_pfx from_pfx []
      r evs hdel hres
    rw [if_neg hok]
    exact h

/-- Destination backup for the C8 witness: FULL, OK, stream-captured. -/
def exTo8 : PgBackup :=
  { dummyBackup with
    status := .stOK, start_time := 9, stream := true,
    backup_mode := .mFull }

/-- Source backup for the C8 witness: archive-based incremental with
LSN range 10..35. -/
def exFrom8 : PgBackup :=
  { dummyBackup with
    status := .stOK, start_time := 4, start_lsn := 10,
    stop_lsn := 35, stream := false, backup_mode := .mPage,
    parent_backup := 9 }

/-- Single regular source-manifest entry of 10 bytes. -/
def exF8 : PgFile := mkFile "f8" .fReg 10 3 .algPglz 0

/-- Merged descriptor the C8 witness run produces. -/
def c8res : PgBackup :=
  { start_time := 4, backup_mode := .mFull, status := .stOK,
    parent_backup := 0, start_lsn := 10, stop_lsn := 35,
    recovery_time := 0, recovery_xid := 0, stream := false,
    compress_alg := .algNone, compress_level := 0, data_bytes := 10,
    wal_bytes := 48, extra_dir_str := none, program_version := 0 }

/-- Event trace of the C8 witness run. -/
def c8evs : List MEvent :=
  [.validateTo .stOK, .assertFromStatus true, .validateFrom .stOK,
   .writeStatus 9 .stMerging, .writeStatus 4 .stMerging, .createDataDirs,
   .deleteSourceFiles 4, .renameBackupDir 9 4]

/-- Witness for `c8_finalize_metadata`: one 10-byte regular file,
segment size 16, LSN range 10..35 gives data bytes 10 and WAL bytes
16 * (35/16 - 10/16 + 1) = 48. -/
theorem c8_finalize_metadata_witness :
    c8res.data_bytes = 10 ∧ c8res.stream = false ∧
    c8res.wal_bytes = 48 ∧ c8res.start_time = 4 := by
  have h := c8_finalize_metadata (fun b => b.status) exOra false 16 exTo8
    exFrom8 [] [exF8] "TR" "FR" "TP" "FP" c8res c8evs (by decide) rfl
  have hs : c8res.stream = false := by rw [h.2.1]; decide
  refine ⟨by rw [h.1]; decide, hs, ?_,
    by rw [h.2.2.2.2.2.2.2.2]; decide⟩
  rw [h.2.2.1 hs]
  decide

/-!
### Claim C7
-/

/-- FULL destination of the resume pair. -/
def exTo7 : PgBackup :=
  { dummyBackup with
    status := .stOK, backup_mode := .mFull, start_time := 4 }

/-- Source backup left in status DELETING by an interrupted previous
merge; the driver admits it (merge.c:87). -/
def exFrom7 : PgBackup :=
  { dummyBackup with
    status := .stDeleting, backup_mode := .mPage,
    start_time := 9, parent_backup := 4 }

/-- C7: the driver admits a DELETING source on resume (first
conjunct), but `merge_backups` evaluates the assertion
`from->status == OK || MERGING` (merge.c:200-201) and validates the
source (merge.c:202) BEFORE the DELETING resume check of
merge.c:241-242: the trace records the assertion as false and a
validation of the source while its status is DELETING, and only then
transfers control to the DeletingSource phase.  This contradicts the
claim that on the resume path control transfers to source deletion
without validating the source and that the assertion holds at every
validation point. -/
theorem c7_assert_fails_on_resume :
    findBackups 9 [exFrom7, exTo7] = .ok (0, 1, exFrom7, exTo7) ∧
    (mergeBackups (fun b => b.status) exOra false 16 exTo7 exFrom7 [] []
        "TR" "FR" "TP" "FP").2 =
      [.validateTo .stOK, .assertFromStatus false,
       .validateFrom .stDeleting, .deleteSourceFiles 9,
       .renameBackupDir 4 9] ∧
    MEvent.assertFromStatus false ∈
      (mergeBackups (fun b => b.status) exOra false 16 exTo7 exFrom7 [] []
        "TR" "FR" "TP" "FP").2 ∧
    MEvent.validateFrom .stDeleting ∈
      (mergeBackups (fun b => b.status) exOra false 16 exTo7 exFrom7 [] []
        "TR" "FR" "TP" "FP").2 := by
  refine ⟨rfl, rfl, by decide, by decide⟩

/-!
### Claim C10
-/

/-- Destination-manifest entry under auxiliary directory 1. -/
def exTF10 : PgFile := mkFile "x10" .fReg 10 3 .algNone 1

/-- C10: on the resume path (source status DELETING, merge.c:241-242
jumping over the list construction at merge.c:255-266) the
destination's auxiliary-directory list is still NULL when the
DeletingSource loop tests a destination-manifest entry with a nonzero
auxiliary-directory index (merge.c:375-377): the trace records a test
against the NULL list, whose `parray_get` lookup is undefined — the
code's own `Assert(argument->from_extra)` before the analogous access
at merge.c:620-623 documents the non-NULL requirement the claim
asserts and this path violates. -/
theorem c10_null_list_on_resume :
    MEvent.extraDirTest none 1 ∈
      (mergeBackups (fun b => b.status) exOra false 16 exTo7 exFrom7
        [exTF10] [] "TR" "FR" "TP" "FP").2 ∧
    parrayGetStr none 0 = none :=
  ⟨by decide, rfl⟩

end Merge
